import Mathlib

/-!
Verification development for the seo-site-audit crawler and extractor.

The Python source (enhanced_extractor.py, extraction_profiles.py) is embedded
shallowly: the rendered page is an abstract document oracle (the Page Renderer
is an external collaborator), every extraction routine is translated function
by function, and the crawl loop is a fuelled state-transition function.
Python's truthiness-based `or` chains, `str.strip`, `str.split`, substring
`in`, and `urlparse(...).netloc` are modelled by the helpers below.
-/

/-- Python `a or b` on strings: the empty string is falsy. -/
def pyOr (a b : String) : String := if a = "" then b else a

/-- Python `a or b` where `a` is `None`-able: both `None` and `""` are falsy. -/
def pyOrO (a b : Option String) : Option String :=
  match a with
  | some s => if s = "" then b else some s
  | none => b

/-- Boolean list-prefix test (structural, kernel-reducible). -/
def listPrefixB : List Char → List Char → Bool
  | [], _ => true
  | _ :: _, [] => false
  | a :: as, b :: bs => a == b && listPrefixB as bs

/-- Boolean list-infix test (structural, kernel-reducible). -/
def listInfixB (needle : List Char) : List Char → Bool
  | [] => needle.isEmpty
  | b :: bs => listPrefixB needle (b :: bs) || listInfixB needle bs

/-- Python `sub in hay` substring containment on strings. -/
def containsSub (hay sub : String) : Bool := listInfixB sub.data hay.data

/-- Python `s.strip()`: leading and trailing whitespace removed. -/
def pyStrip (s : String) : String :=
  ⟨((s.data.dropWhile Char.isWhitespace).reverse.dropWhile Char.isWhitespace).reverse⟩

/-- Word counter over a character stream: a word is a maximal run of
non-whitespace characters. -/
def wordCountAux : List Char → Bool → Nat
  | [], _ => 0
  | c :: cs, inWord =>
    if c.isWhitespace then wordCountAux cs false
    else (if inWord then 0 else 1) + wordCountAux cs true

/-- Python `len(s.split())`: whitespace-delimited token count, empty tokens dropped. -/
def pyWordCount (s : String) : Nat := wordCountAux s.data false

/-- The characters after the first `//` of the list, if any. -/
def afterDoubleSlash : List Char → Option (List Char)
  | [] => none
  | '/' :: '/' :: rest => some rest
  | _ :: rest => afterDoubleSlash rest

/-- Model of `urlparse(url).netloc`: the component after `//` up to the next `/`, `?` or `#`. -/
def netloc (url : String) : String :=
  match afterDoubleSlash url.data with
  | some rest => ⟨rest.takeWhile (fun c => decide (c ≠ '/' ∧ c ≠ '?' ∧ c ≠ '#'))⟩
  | none => ""

/-- Python `s.split(sep)` on a single-character separator (structural). -/
def splitCharAux (sep : Char) : List Char → List Char → List (List Char)
  | [], acc => [acc.reverse]
  | c :: cs, acc =>
    if c == sep then acc.reverse :: splitCharAux sep cs []
    else splitCharAux sep cs (c :: acc)

/-- Python `s.split(sep)` for a single-character separator. -/
def pySplit (sep : Char) (s : String) : List String :=
  (splitCharAux sep s.data []).map (fun l => ⟨l⟩)

/-- The crawl's own host extraction: `start_url.split('/')[2]`, as `Option` for
the `IndexError` case (fewer than three `/`-separated parts). -/
def splitHost (url : String) : Option String := (pySplit '/' url).get? 2

/-- A minimal JSON value, the output type of the external `json.loads`. -/
inductive Jsn where
  | null : Jsn
  | jb : Bool → Jsn
  | jn : Int → Jsn
  | js : String → Jsn
  | ja : List Jsn → Jsn
  | jo : List (String × Jsn) → Jsn

/-- A DOM element as the extractor sees it: its attributes (an absent
attribute is an absent key, `get_attribute` returns `None`) and its
rendered inner text. -/
structure Elem where
  attrs : List (String × String)
  innerText : String
  deriving DecidableEq

/-- The rendered-document oracle (the Page Renderer collaborator of the spec):
`titleRes` is `page.title()` (`none` = the call raised), `query sel` is
`page.locator(sel).all()`, `singleAttr sel attr` is
`page.locator(sel).get_attribute(attr)` collapsed over the raise/absent cases,
the `eval*` fields are the page-level JavaScript evaluations (`none` = raised),
and `parseJson` is `json.loads` on a script body (`none` = parse error). -/
structure Doc where
  titleRes : Option String
  query : String → List Elem
  singleAttr : String → String → Option String
  evalLargeTexts : Option (List String)
  evalVisualHeadings : Option (List String)
  evalBlockTexts : Option (List String)
  evalBgImages : Option (List String)
  parseJson : String → Option Jsn

/-- Output of `RobustExtractor._extract_titles`. -/
structure Titles where
  title_tag : String
  og_title : String
  twitter_title : String
  h1_as_title : String
  largest_text_as_title : String
  best_title : String
  deriving DecidableEq

/-- Embedding of `RobustExtractor._extract_titles`: each strategy fills its field (failures
leave the `""` default), then `best_title` is the Python `or` chain over
title tag, og:title, first h1, twitter:title, largest header text, with the
literal sentinel at the end. -/
def extract_titles (d : Doc) : Titles :=
  let title_tag := d.titleRes.getD ""
  let og_title := (d.singleAttr "meta[property=\"og:title\"]" "content").getD ""
  let twitter_title := (d.singleAttr "meta[name=\"twitter:title\"]" "content").getD ""
  let h1_as_title :=
    match (d.query "h1").head? with
    | some h => (pyStrip h.innerText)
    | none => ""
  let largest_text_as_title :=
    match d.evalLargeTexts with
    | some (t :: _) => t
    | _ => ""
  ⟨title_tag, og_title, twitter_title, h1_as_title, largest_text_as_title,
    pyOr title_tag (pyOr og_title (pyOr h1_as_title (pyOr twitter_title
      (pyOr largest_text_as_title "NO TITLE FOUND"))))⟩

/-- Spec-side field resolution: the first non-empty string in the ordered
strategy-output list, else the declared sentinel. -/
def firstNonEmptyOr (l : List String) (dflt : String) : String :=
  (l.find? (fun s => decide (s ≠ ""))).getD dflt

theorem pyOr_chain (a b c e f : String) :
    pyOr a (pyOr b (pyOr c (pyOr e (pyOr f "NO TITLE FOUND")))) =
      firstNonEmptyOr [a, b, c, e, f] "NO TITLE FOUND" := by
  unfold firstNonEmptyOr pyOr
  by_cases ha : a = "" <;> by_cases hb : b = "" <;> by_cases hc : c = "" <;>
    by_cases he : e = "" <;> by_cases hf : f = "" <;>
    simp [List.find?, ha, hb, hc, he, hf]

/-- Claim C1: the resolved `best_title` equals the output of the first
strategy, in the order title tag, og:title, first h1, twitter:title,
visually-largest header text, whose result is non-empty; if all five are
empty it equals the literal sentinel "NO TITLE FOUND". -/
theorem best_title_resolution_order (d : Doc) :
    (extract_titles d).best_title =
      firstNonEmptyOr [(extract_titles d).title_tag, (extract_titles d).og_title,
        (extract_titles d).h1_as_title, (extract_titles d).twitter_title,
        (extract_titles d).largest_text_as_title] "NO TITLE FOUND" := by
  unfold extract_titles
  exact pyOr_chain _ _ _ _ _

/-- Output of `RobustExtractor._extract_descriptions`. -/
structure Descriptions where
  meta_description : String
  og_description : String
  first_paragraph : String
  twitter_description : String
  best_description : String
  deriving DecidableEq

/-- Embedding of `RobustExtractor._extract_descriptions`: meta description, og:description,
first paragraph with stripped length strictly between 50 and 500,
twitter:description, resolved through the Python `or` chain with the
"NO DESCRIPTION FOUND" sentinel. -/
def extract_descriptions (d : Doc) : Descriptions :=
  let meta_description := (d.singleAttr "meta[name=\"description\"]" "content").getD ""
  let og_description := (d.singleAttr "meta[property=\"og:description\"]" "content").getD ""
  let twitter_description := (d.singleAttr "meta[name=\"twitter:description\"]" "content").getD ""
  let first_paragraph :=
    match (d.query "p").find?
        (fun p => decide (50 < (pyStrip p.innerText).length ∧ (pyStrip p.innerText).length < 500)) with
    | some p => (pyStrip p.innerText)
    | none => ""
  ⟨meta_description, og_description, first_paragraph, twitter_description,
    pyOr meta_description (pyOr og_description (pyOr first_paragraph
      (pyOr twitter_description "NO DESCRIPTION FOUND")))⟩

/-- Output of `RobustExtractor._extract_headings`. -/
structure Headings where
  h1_tags : List String
  h2_tags : List String
  h3_tags : List String
  h4_tags : List String
  h5_tags : List String
  h6_tags : List String
  heading_structure_issues : List String
  visual_headings : List String
  deriving DecidableEq

/-- The per-level heading harvest: stripped inner texts of all matches of the
selector, empty texts dropped. -/
def headingTexts (d : Doc) (sel : String) : List String :=
  ((d.query sel).map (fun h => pyStrip h.innerText)).filter (fun t => decide (t ≠ ""))

/-- Embedding of `RobustExtractor._extract_headings`: per-level heading texts, the
visual-headings script result (empty on failure), and the structure-issue
flags NO_H1 / MULTIPLE_H1 derived from the h1 count. -/
def extract_headings (d : Doc) : Headings :=
  let h1 := headingTexts d "h1"
  let issues := if h1.length = 0 then ["NO_H1"]
    else if 1 < h1.length then ["MULTIPLE_H1"] else []
  ⟨h1, headingTexts d "h2", headingTexts d "h3", headingTexts d "h4",
    headingTexts d "h5", headingTexts d "h6", issues, d.evalVisualHeadings.getD []⟩

/-- Output of `RobustExtractor._extract_main_content`. -/
structure MainContent where
  main_text : String
  word_count : Nat
  paragraph_count : Nat
  all_text_blocks : List String
  content_location : String
  has_thin_content : Bool
  has_good_content : Bool
  has_long_content : Bool
  deriving DecidableEq

/-- The ordered generic content-container selector list of
`_extract_main_content`. -/
def contentSelList : List String :=
  [".content", "#content", "[class*=\"content\"]", ".post", "[class*=\"post\"]",
    ".entry", "[class*=\"entry\"]", ".article", "[class*=\"article\"]", "body"]

/-- Embedding of `RobustExtractor._extract_main_content`: semantic main region first, then
the first generic container selector whose first match has stripped text
longer than 100 characters, then the largest-block script; word count and
the three length-bucket flags over the resolved text. -/
def extract_main_content (d : Doc) : MainContent :=
  let step1 : String × String :=
    match (d.query "main, article, [role=\"main\"]").head? with
    | some e => (pyStrip e.innerText, "semantic_main")
    | none => ("", "")
  let step2 : String × String :=
    if step1.1 ≠ "" then step1
    else
      match contentSelList.findSome? (fun sel =>
          match (d.query sel).head? with
          | some e => if 100 < (pyStrip e.innerText).length then some (pyStrip e.innerText, sel) else none
          | none => none) with
      | some r => r
      | none => step1
  let step3 : String × String :=
    if step2.1 ≠ "" then step2
    else
      match d.evalBlockTexts with
      | some (t :: _) => (t, "largest_block")
      | _ => step2
  let paragraphs := d.query "p"
  let wc := if step3.1 ≠ "" then pyWordCount step3.1 else 0
  ⟨step3.1, wc, paragraphs.length,
    (paragraphs.map (fun p => pyStrip p.innerText)).filter (fun t => decide (20 < t.length)),
    step3.2, decide (wc < 300), decide (300 ≤ wc ∧ wc < 2000), decide (2000 ≤ wc)⟩

/-- One entry of `images_details` in `RobustExtractor._extract_images`. -/
structure ImgInfo where
  src : Option String
  alt : String
  title : String
  width : Option String
  height : Option String
  has_alt : Bool
  alt_quality : String
  deriving DecidableEq

/-- The Python condition `alt and len(alt) > 5`: the attribute is present,
truthy, and longer than five characters. -/
def altGoodB (alt : Option String) : Bool :=
  match alt with
  | some s => decide (s ≠ "" ∧ 5 < s.length)
  | none => false

/-- The `alt_quality` classification of `_extract_images`:
`"good" if (alt and len(alt) > 5) else ("empty" if alt == "" else "missing")`,
where `alt` is the raw attribute (`none` = absent). -/
def alt_quality (alt : Option String) : String :=
  if altGoodB alt then "good"
  else if alt = some "" then "empty" else "missing"

/-- The per-image detail record of `_extract_images`. -/
def imgInfoOf (img : Elem) : ImgInfo :=
  let alt := img.attrs.lookup "alt"
  ⟨pyOrO (img.attrs.lookup "src")
      (pyOrO (img.attrs.lookup "data-src") (img.attrs.lookup "data-lazy-src")),
    alt.getD "", (img.attrs.lookup "title").getD "",
    img.attrs.lookup "width", img.attrs.lookup "height",
    alt.isSome, alt_quality alt⟩

/-- Output of `RobustExtractor._extract_images`. -/
structure ImagesData where
  total_images : Nat
  images_without_alt : Nat
  images_with_empty_alt : Nat
  images_with_good_alt : Nat
  images_details : List ImgInfo
  background_images : List String
  deriving DecidableEq

/-- The counter update of the image loop: `if alt is None` / `elif alt == ""` /
`elif len(alt) > 5`, as (without, empty, good). -/
def imgCountStep (acc : Nat × Nat × Nat) (img : Elem) : Nat × Nat × Nat :=
  match img.attrs.lookup "alt" with
  | none => (acc.1 + 1, acc.2.1, acc.2.2)
  | some a => if a = "" then (acc.1, acc.2.1 + 1, acc.2.2)
    else if 5 < a.length then (acc.1, acc.2.1, acc.2.2 + 1) else acc

/-- Embedding of `RobustExtractor._extract_images`: totals, the three alt counters, the
per-image detail list, and the background-image script result. -/
def extract_images (d : Doc) : ImagesData :=
  let imgs := d.query "img"
  let counts := imgs.foldl imgCountStep (0, 0, 0)
  ⟨imgs.length, counts.1, counts.2.1, counts.2.2,
    imgs.map imgInfoOf, d.evalBgImages.getD []⟩

/-- Output of `RobustExtractor._extract_links`. -/
structure LinksData where
  total_links : Nat
  internal_links : Nat
  external_links : Nat
  broken_anchor_links : Nat
  links_without_text : Nat
  nofollow_links : Nat
  deriving DecidableEq

/-- The per-link counter update of `_extract_links`: links with falsy href are
skipped entirely; internal/external is an if/elif, the other three are
independent checks. -/
def linkStep (domain : String) (acc : LinksData) (link : Elem) : LinksData :=
  match link.attrs.lookup "href" with
  | none => acc
  | some href =>
    if href = "" then acc
    else
      let text := (pyStrip link.innerText)
      let rel := (link.attrs.lookup "rel").getD ""
      ⟨acc.total_links,
        acc.internal_links + (if href.startsWith "/" || containsSub href domain then 1 else 0),
        acc.external_links +
          (if !(href.startsWith "/" || containsSub href domain) && href.startsWith "http"
            then 1 else 0),
        acc.broken_anchor_links + (if href == "#" || href.startsWith "#" then 1 else 0),
        acc.links_without_text + (if text == "" then 1 else 0),
        acc.nofollow_links + (if containsSub rel "nofollow" then 1 else 0)⟩

/-- Embedding of `RobustExtractor._extract_links`: `total_links` is the full anchor count,
the five sub-counters are accumulated by `linkStep` over the same anchors,
against `urlparse(self.url).netloc`. -/
def extract_links (url : String) (d : Doc) : LinksData :=
  let domain := netloc url
  let links := d.query "a"
  links.foldl (linkStep domain) ⟨links.length, 0, 0, 0, 0, 0⟩

/-- Output of `RobustExtractor._extract_structured_data`. -/
structure StructuredData where
  has_schema : Bool
  schema_types : List Jsn
  schema_data : List Jsn
  json_ld_count : Nat
  microdata_count : Nat

/-- Embedding of `RobustExtractor._extract_structured_data`: every ld+json script body is
parsed (empty text parses as the empty object, parse failures are skipped); a
list payload is walked element-wise; every object with an `@type` key
contributes its type and raw payload; microdata is the `[itemscope]` match
count. -/
def extract_structured_data (d : Doc) : StructuredData :=
  let scripts := d.query "script[type=\"application/ld+json\"]"
  let st := scripts.foldl (fun (acc : List Jsn × List Jsn) sc =>
    match (if sc.innerText = "" then some (Jsn.jo []) else d.parseJson sc.innerText) with
    | none => acc
    | some data =>
      let schemas := match data with | Jsn.ja l => l | x => [x]
      schemas.foldl (fun acc2 sch =>
        match sch with
        | Jsn.jo fields =>
          match fields.lookup "@type" with
          | some t => (acc2.1 ++ [t], acc2.2 ++ [Jsn.jo fields])
          | none => acc2
        | _ => acc2) acc) ([], [])
  ⟨decide (0 < st.1.length), st.1, st.2, scripts.length, (d.query "[itemscope]").length⟩

/-- Output of `RobustExtractor._extract_seo_elements`. -/
structure SeoElements where
  canonical_url : String
  robots_meta : String
  has_sitemap_link : Bool
  has_robots_txt : Bool
  hreflang_tags : List (Option String × Option String)
  og_tags : List (String × String)
  twitter_tags : List (String × String)

/-- Python dict assignment `m[k] = v`: update in place if the key exists,
else append (insertion order preserved). -/
def dictSet (m : List (String × String)) (k v : String) : List (String × String) :=
  if m.any (fun p => p.1 = k) then m.map (fun p => if p.1 = k then (k, v) else p)
  else m ++ [(k, v)]

/-- The og:/twitter: meta collection loop of `_extract_seo_elements`:
name/property and content must both be truthy; last-seen value wins. -/
def tagDict (d : Doc) (sel attrName : String) : List (String × String) :=
  (d.query sel).foldl (fun m tag =>
    match tag.attrs.lookup attrName, tag.attrs.lookup "content" with
    | some p, some c => if p ≠ "" ∧ c ≠ "" then dictSet m p c else m
    | _, _ => m) []

/-- Embedding of `RobustExtractor._extract_seo_elements`: canonical href, robots meta,
the two never-updated flags, hreflang pairs, and the og:/twitter: tag dicts. -/
def extract_seo_elements (d : Doc) : SeoElements :=
  ⟨(d.singleAttr "link[rel=\"canonical\"]" "href").getD "",
    (d.singleAttr "meta[name=\"robots\"]" "content").getD "",
    false, false,
    (d.query "link[rel=\"alternate\"][hreflang]").map
      (fun l => (l.attrs.lookup "hreflang", l.attrs.lookup "href")),
    tagDict d "meta[property^=\"og:\"]" "property",
    tagDict d "meta[name^=\"twitter:\"]" "name"⟩

/-- Values inside a mapping-valued selector specification. -/
inductive SelDictEntry where
  | s : String → SelDictEntry
  | b : Bool → SelDictEntry
  deriving DecidableEq

/-- One value of the per-field selector specification in PROFILES: a list of
selector strings, a mapping (the e-commerce `images` entry), or a bare
boolean (the general profile's `basic_content`). -/
inductive SelSpec where
  | strs : List String → SelSpec
  | dict : List (String × SelDictEntry) → SelSpec
  | flag : Bool → SelSpec
  deriving DecidableEq

/-- One extraction profile of extraction_profiles.PROFILES. -/
structure Profile where
  name : String
  description : String
  selectors : List (String × SelSpec)
  schema_types : List String
  deriving DecidableEq

/-- The "ecommerce" profile. -/
def ecommerceProfile : Profile :=
  ⟨"E-commerce", "Extracts product prices, SKUs, inventory, reviews",
    [("price", SelSpec.strs ["[class*=\"price\"]", "[id*=\"price\"]",
        "[data-testid*=\"price\"]", ".product-price", "span[itemprop=\"price\"]"]),
      ("product_name", SelSpec.strs ["h1[class*=\"product\"]", "[itemprop=\"name\"]",
        ".product-title"]),
      ("sku", SelSpec.strs ["[class*=\"sku\"]", "[data-sku]", "span[itemprop=\"sku\"]"]),
      ("availability", SelSpec.strs ["[class*=\"stock\"]", "[itemprop=\"availability\"]",
        ".availability"]),
      ("reviews", SelSpec.strs ["[class*=\"review\"]", "[itemprop=\"ratingValue\"]",
        ".rating"]),
      ("images", SelSpec.dict
        [("product_images", SelDictEntry.s "[class*=\"product\"] img, .gallery img"),
          ("check_alt", SelDictEntry.b true), ("check_size", SelDictEntry.b true)])],
    ["Product", "Offer", "AggregateRating"]⟩

/-- The "b2b" profile. -/
def b2bProfile : Profile :=
  ⟨"B2B / SaaS", "Extracts CTAs, forms, case studies, features",
    [("cta_buttons", SelSpec.strs ["a[href*=\"contact\"]", "a[href*=\"demo\"]",
        "button[class*=\"cta\"]", ".btn-primary"]),
      ("forms", SelSpec.strs ["form[class*=\"contact\"]", "form[class*=\"lead\"]",
        "input[type=\"email\"]"]),
      ("case_studies", SelSpec.strs ["[class*=\"case-study\"]", "[class*=\"testimonial\"]",
        ".customer-story"]),
      ("features", SelSpec.strs ["[class*=\"feature\"]", ".benefits li",
        "[class*=\"capability\"]"]),
      ("pricing", SelSpec.strs ["[class*=\"price\"]", "[class*=\"plan\"]", ".pricing-tier"])],
    ["Organization", "Service", "FAQPage"]⟩

/-- The "blog_content" profile. -/
def blogContentProfile : Profile :=
  ⟨"Blog / Content Site", "Extracts articles, authors, dates, categories",
    [("article_body", SelSpec.strs ["article", "[class*=\"content\"]", ".post-content",
        "main"]),
      ("author", SelSpec.strs ["[class*=\"author\"]", "[rel=\"author\"]",
        "span[itemprop=\"author\"]"]),
      ("publish_date", SelSpec.strs ["time[datetime]", "[class*=\"date\"]",
        "meta[property=\"article:published_time\"]"]),
      ("categories", SelSpec.strs ["[class*=\"category\"]", "[class*=\"tag\"]", ".taxonomy"]),
      ("reading_time", SelSpec.strs ["[class*=\"reading-time\"]", "[class*=\"read-time\"]"])],
    ["Article", "BlogPosting", "NewsArticle"]⟩

/-- The "local_business" profile. -/
def localBusinessProfile : Profile :=
  ⟨"Local Business", "Extracts NAP, hours, services, locations",
    [("business_name", SelSpec.strs ["h1", "[itemprop=\"name\"]", ".business-name"]),
      ("address", SelSpec.strs ["[class*=\"address\"]", "[itemprop=\"address\"]",
        ".location"]),
      ("phone", SelSpec.strs ["a[href^=\"tel:\"]", "[class*=\"phone\"]",
        "[itemprop=\"telephone\"]"]),
      ("hours", SelSpec.strs ["[class*=\"hours\"]", "[itemprop=\"openingHours\"]",
        ".business-hours"]),
      ("services", SelSpec.strs ["[class*=\"service\"]", "ul.services li", ".offerings"])],
    ["LocalBusiness", "Service", "OpeningHoursSpecification"]⟩

/-- The "general" profile. -/
def generalProfile : Profile :=
  ⟨"General SEO Audit", "Standard SEO elements only",
    [("basic_content", SelSpec.flag true)], []⟩

/-- extraction_profiles.PROFILES, key order as in the source dict. -/
def PROFILES : List (String × Profile) :=
  [("ecommerce", ecommerceProfile), ("b2b", b2bProfile),
    ("blog_content", blogContentProfile), ("local_business", localBusinessProfile),
    ("general", generalProfile)]

/-- The inner collection loop of `_extract_profile_specific` for a
list-of-selectors field: every selector in order, every matched element,
non-empty stripped text, first-seen dedup, final `[:10]` truncation. -/
def collectValues (d : Doc) (sels : List String) : List String :=
  (sels.foldl (fun acc sel =>
    (d.query sel).foldl (fun acc2 el =>
      let t := (pyStrip el.innerText)
      if t ≠ "" ∧ ¬ acc2.contains t then acc2 ++ [t] else acc2) acc) []).take 10

/-- A value in the flat page record (the PageRecord dict of the spec). -/
inductive Val where
  | s : String → Val
  | n : Nat → Val
  | b : Bool → Val
  | ls : List String → Val
  | imgs : List ImgInfo → Val
  | hrefl : List (Option String × Option String) → Val
  | pairs : List (String × String) → Val
  | js : List Jsn → Val

/-- Embedding of `RobustExtractor._extract_profile_specific`: unregistered keys and
"general" contribute nothing; a list-valued field collects text values via
`collectValues`; a mapping-valued field is emitted as an empty dict; a
bare-boolean field is emitted under no key. -/
def extract_profile_specific (profile_key : String) (d : Doc) : List (String × Val) :=
  match PROFILES.lookup profile_key with
  | none => []
  | some profile =>
    if profile_key = "general" then []
    else
      profile.selectors.foldl (fun acc fs =>
        match fs.2 with
        | SelSpec.strs sels => acc ++ [("profile_" ++ fs.1, Val.ls (collectValues d sels))]
        | SelSpec.dict _ => acc ++ [("profile_" ++ fs.1, Val.pairs [])]
        | SelSpec.flag _ => acc) []

/-- The combined meta name of `_extract_metadata`:
`name or property or http-equiv` under Python truthiness. -/
def metaName (m : Elem) : Option String :=
  pyOrO (m.attrs.lookup "name") (pyOrO (m.attrs.lookup "property")
    (m.attrs.lookup "http-equiv"))

/-- Embedding of `RobustExtractor._extract_metadata`: one `meta_ + name` key per meta tag
whose combined name and content are both truthy. -/
def metadataPairs (d : Doc) : List (String × Val) :=
  (d.query "meta").filterMap (fun m =>
    match metaName m, m.attrs.lookup "content" with
    | some nm, some c => if nm ≠ "" ∧ c ≠ "" then some ("meta_" ++ nm, Val.s c) else none
    | _, _ => none)

/-- The dict rows contributed by `_extract_titles`, in insertion order. -/
def titlesPairs (t : Titles) : List (String × Val) :=
  [("title_tag", Val.s t.title_tag), ("og_title", Val.s t.og_title),
    ("twitter_title", Val.s t.twitter_title), ("h1_as_title", Val.s t.h1_as_title),
    ("largest_text_as_title", Val.s t.largest_text_as_title),
    ("best_title", Val.s t.best_title)]

/-- The dict rows contributed by `_extract_descriptions`. -/
def descriptionsPairs (t : Descriptions) : List (String × Val) :=
  [("meta_description", Val.s t.meta_description), ("og_description", Val.s t.og_description),
    ("first_paragraph", Val.s t.first_paragraph),
    ("twitter_description", Val.s t.twitter_description),
    ("best_description", Val.s t.best_description)]

/-- The dict rows contributed by `_extract_headings`. -/
def headingsPairs (t : Headings) : List (String × Val) :=
  [("h1_tags", Val.ls t.h1_tags), ("h2_tags", Val.ls t.h2_tags),
    ("h3_tags", Val.ls t.h3_tags), ("h4_tags", Val.ls t.h4_tags),
    ("h5_tags", Val.ls t.h5_tags), ("h6_tags", Val.ls t.h6_tags),
    ("heading_structure_issues", Val.ls t.heading_structure_issues),
    ("visual_headings", Val.ls t.visual_headings)]

/-- The dict rows contributed by `_extract_main_content`. -/
def contentPairs (t : MainContent) : List (String × Val) :=
  [("main_text", Val.s t.main_text), ("word_count", Val.n t.word_count),
    ("paragraph_count", Val.n t.paragraph_count),
    ("all_text_blocks", Val.ls t.all_text_blocks),
    ("content_location", Val.s t.content_location),
    ("has_thin_content", Val.b t.has_thin_content),
    ("has_good_content", Val.b t.has_good_content),
    ("has_long_content", Val.b t.has_long_content)]

/-- The dict rows contributed by `_extract_images`. -/
def imagesPairs (t : ImagesData) : List (String × Val) :=
  [("total_images", Val.n t.total_images), ("images_without_alt", Val.n t.images_without_alt),
    ("images_with_empty_alt", Val.n t.images_with_empty_alt),
    ("images_with_good_alt", Val.n t.images_with_good_alt),
    ("images_details", Val.imgs t.images_details),
    ("background_images", Val.ls t.background_images)]

/-- The dict rows contributed by `_extract_links`. -/
def linksPairs (t : LinksData) : List (String × Val) :=
  [("total_links", Val.n t.total_links), ("internal_links", Val.n t.internal_links),
    ("external_links", Val.n t.external_links),
    ("broken_anchor_links", Val.n t.broken_anchor_links),
    ("links_without_text", Val.n t.links_without_text),
    ("nofollow_links", Val.n t.nofollow_links)]

/-- The dict rows contributed by `_extract_structured_data`. -/
def structuredPairs (t : StructuredData) : List (String × Val) :=
  [("has_schema", Val.b t.has_schema), ("schema_types", Val.js t.schema_types),
    ("schema_data", Val.js t.schema_data), ("json_ld_count", Val.n t.json_ld_count),
    ("microdata_count", Val.n t.microdata_count)]

/-- The dict rows contributed by `_extract_seo_elements`. -/
def seoPairs (t : SeoElements) : List (String × Val) :=
  [("canonical_url", Val.s t.canonical_url), ("robots_meta", Val.s t.robots_meta),
    ("has_sitemap_link", Val.b t.has_sitemap_link),
    ("has_robots_txt", Val.b t.has_robots_txt),
    ("hreflang_tags", Val.hrefl t.hreflang_tags),
    ("og_tags", Val.pairs t.og_tags), ("twitter_tags", Val.pairs t.twitter_tags)]

/-- Embedding of `RobustExtractor.extract_all_content`: the flat PageRecord, assembled in
the merge order of the source dict literal (`url`, then each sub-extractor's
rows; on a duplicate key the later row is the dict's surviving value). -/
def extract_all_content (profile_key : String) (d : Doc) (url : String) :
    List (String × Val) :=
  ("url", Val.s url) ::
    (metadataPairs d ++ titlesPairs (extract_titles d) ++
      descriptionsPairs (extract_descriptions d) ++ headingsPairs (extract_headings d) ++
      contentPairs (extract_main_content d) ++ imagesPairs (extract_images d) ++
      linksPairs (extract_links url d) ++ structuredPairs (extract_structured_data d) ++
      seoPairs (extract_seo_elements d) ++ extract_profile_specific profile_key d)

/-- The `url` field of a PageRecord. -/
def recUrl (r : List (String × Val)) : Option Val := r.lookup "url"

/-- The crawl's external collaborators: `fetch` is `page.goto` plus the
pre-extraction scroll (`none` = any of them raised, the URL is skipped), and
`resolveUrl href base` is the in-page `new URL(href, base).href` evaluation
(`none` = it raised, the link is dropped). -/
structure World where
  fetch : String → Option Doc
  resolveUrl : String → String → Option String

/-- The mutable state of `enhanced_crawl_with_extraction`: accumulated
PageRecords, the visited set (as its insertion sequence), the FIFO frontier,
and a ghost trace of every URL ever appended to the frontier after
initialisation. -/
structure CrawlState where
  results : List (List (String × Val))
  visited : List String
  to_visit : List String
  enqueued : List String

/-- The body of the link-harvest loop for one anchor: truthy href, resolved
against the current page, kept when the start host
(`start_url.split('/')[2]`) occurs as a substring of the full resolved URL
and the URL is not yet visited. -/
def harvestOne (w : World) (startHost : Option String) (base : String)
    (visited : List String) (link : Elem) : Option String :=
  match link.attrs.lookup "href" with
  | none => none
  | some href =>
    if href = "" then none
    else
      match w.resolveUrl href base with
      | none => none
      | some full =>
        match startHost with
        | none => none
        | some h =>
          if containsSub full h = true ∧ full ∉ visited then some full else none

/-- The link-harvest loop of the crawl: the first 30 anchors carrying an href
attribute, each put through `harvestOne`. -/
def harvestLinks (w : World) (startHost : Option String) (base : String)
    (visited : List String) (d : Doc) : List String :=
  ((d.query "a[href]").take 30).filterMap (harvestOne w startHost base visited)

/-- The crawl loop of `enhanced_crawl_with_extraction`, fuelled:
`while to_visit and len(visited) < max_pages`, FIFO pop, visited-dedup on
dequeue, skip on fetch failure, else mark visited, extract, append the
record, and enqueue the harvested links. -/
def crawlLoop (w : World) (profile_key : String) (startHost : Option String)
    (max_pages : Nat) : Nat → CrawlState → CrawlState
  | 0, st => st
  | Nat.succ fuel, st =>
    match st.to_visit with
    | [] => st
    | url :: rest =>
      if max_pages ≤ st.visited.length then st
      else if url ∈ st.visited then
        crawlLoop w profile_key startHost max_pages fuel
          ⟨st.results, st.visited, rest, st.enqueued⟩
      else
        match w.fetch url with
        | none =>
          crawlLoop w profile_key startHost max_pages fuel
            ⟨st.results, st.visited, rest, st.enqueued⟩
        | some d =>
          let visited' := st.visited ++ [url]
          let newLinks := harvestLinks w startHost url visited' d
          crawlLoop w profile_key startHost max_pages fuel
            ⟨st.results ++ [extract_all_content profile_key d url], visited',
              rest ++ newLinks, st.enqueued ++ newLinks⟩

/-- A full crawl run from the initial state (frontier seeded with the start
URL), returning the final state. -/
def crawlRun (w : World) (start_url : String) (max_pages : Nat)
    (profile_key : String) (fuel : Nat) : CrawlState :=
  crawlLoop w profile_key (splitHost start_url) max_pages fuel ⟨[], [], [start_url], []⟩

/-- Embedding of `enhanced_crawl_with_extraction`: the accumulated PageRecord list of a
crawl run. -/
def enhanced_crawl_with_extraction (w : World) (start_url : String)
    (max_pages : Nat) (profile_key : String) (fuel : Nat) :
    List (List (String × Val)) :=
  (crawlRun w start_url max_pages profile_key fuel).results

theorem recUrl_extract (pk : String) (d : Doc) (url : String) :
    recUrl (extract_all_content pk d url) = some (Val.s url) := rfl

theorem harvestOne_some {w : World} {sh : Option String} {base : String}
    {visited : List String} {link : Elem} {u : String}
    (hf : harvestOne w sh base visited link = some u) :
    ∀ h, sh = some h → containsSub u h = true := by
  unfold harvestOne at hf
  split at hf
  · cases hf
  · split at hf
    · cases hf
    · split at hf
      · cases hf
      · split at hf
        · cases hf
        · split at hf
          · rename_i hcond
            cases hf
            intro h hsh
            cases hsh
            exact hcond.1
          · cases hf

theorem mem_harvestLinks {w : World} {startHost : Option String} {base : String}
    {visited : List String} {d : Doc} {u : String}
    (hu : u ∈ harvestLinks w startHost base visited d) :
    ∀ h, startHost = some h → containsSub u h = true := by
  obtain ⟨link, -, hf⟩ := List.mem_filterMap.mp hu
  exact harvestOne_some hf

theorem crawlLoop_inv (w : World) (pk : String) (sh : Option String) (mp : Nat)
    (start : String) :
    ∀ (fuel : Nat) (st : CrawlState),
      st.results.map recUrl = st.visited.map (fun u => some (Val.s u)) →
      st.visited.Nodup →
      st.visited.length ≤ mp →
      (∀ u ∈ st.enqueued, ∀ h, sh = some h → containsSub u h = true) →
      (∀ u ∈ st.visited, u = start ∨ u ∈ st.enqueued) →
      (∀ u ∈ st.to_visit, u = start ∨ u ∈ st.enqueued) →
      ((crawlLoop w pk sh mp fuel st).results.map recUrl =
          (crawlLoop w pk sh mp fuel st).visited.map (fun u => some (Val.s u)) ∧
        (crawlLoop w pk sh mp fuel st).visited.Nodup ∧
        (crawlLoop w pk sh mp fuel st).visited.length ≤ mp ∧
        (∀ u ∈ (crawlLoop w pk sh mp fuel st).enqueued, ∀ h,
          sh = some h → containsSub u h = true) ∧
        (∀ u ∈ (crawlLoop w pk sh mp fuel st).visited,
          u = start ∨ u ∈ (crawlLoop w pk sh mp fuel st).enqueued)) := by
  intro fuel
  induction fuel with
  | zero =>
    intro st h1 h2 h3 h4 h5 h6
    exact ⟨h1, h2, h3, h4, h5⟩
  | succ n ih =>
    rintro ⟨res, vis, tv, enq⟩ h1 h2 h3 h4 h5 h6
    cases tv with
    | nil => exact ⟨h1, h2, h3, h4, h5⟩
    | cons url rest =>
      by_cases hmp : mp ≤ vis.length
      · simp only [crawlLoop, if_pos hmp]
        exact ⟨h1, h2, h3, h4, h5⟩
      · by_cases hv : url ∈ vis
        · simp only [crawlLoop, if_neg hmp, if_pos hv]
          exact ih ⟨res, vis, rest, enq⟩ h1 h2 h3 h4 h5
            (fun u hu => h6 u (List.mem_cons_of_mem _ hu))
        · cases hfet : w.fetch url with
          | none =>
            simp only [crawlLoop, if_neg hmp, if_neg hv, hfet]
            exact ih ⟨res, vis, rest, enq⟩ h1 h2 h3 h4 h5
              (fun u hu => h6 u (List.mem_cons_of_mem _ hu))
          | some d =>
            simp only [crawlLoop, if_neg hmp, if_neg hv, hfet]
            apply ih
            · simp only [List.map_append, List.map_cons, List.map_nil, h1, recUrl_extract]
            · refine h2.append (List.nodup_singleton url) ?_
              intro a ha hmem
              rw [List.mem_singleton] at hmem
              subst hmem
              exact hv ha
            · simp only [List.length_append, List.length_singleton]
              omega
            · intro u hu hst hsh
              rcases List.mem_append.mp hu with h | h
              · exact h4 u h hst hsh
              · exact mem_harvestLinks h hst hsh
            · intro u hu
              rcases List.mem_append.mp hu with h | h
              · rcases h5 u h with h' | h'
                · exact Or.inl h'
                · exact Or.inr (List.mem_append_left _ h')
              · rcases List.mem_singleton.mp h with rfl
                rcases h6 u (List.mem_cons_self _ _) with h' | h'
                · exact Or.inl h'
                · exact Or.inr (List.mem_append_left _ h')
            · intro u hu
              rcases List.mem_append.mp hu with h | h
              · rcases h6 u (List.mem_cons_of_mem _ h) with h' | h'
                · exact Or.inl h'
                · exact Or.inr (List.mem_append_left _ h')
              · exact Or.inr (List.mem_append_right _ h)

/-- Claim C3: every crawl run returns at most `max_pages` PageRecords, and no
two PageRecords in the result list have the same `url` value. -/
theorem crawl_results_bounded_and_urls_distinct (w : World) (start_url : String)
    (max_pages : Nat) (profile_key : String) (fuel : Nat) :
    (enhanced_crawl_with_extraction w start_url max_pages profile_key fuel).length ≤
        max_pages ∧
      ((enhanced_crawl_with_extraction w start_url max_pages profile_key fuel).map
        recUrl).Nodup := by
  have h := crawlLoop_inv w profile_key (splitHost start_url) max_pages start_url fuel
    ⟨[], [], [start_url], []⟩ rfl List.nodup_nil (Nat.zero_le _)
    (by intro u hu; cases hu) (by intro u hu; cases hu)
    (by intro u hu; exact Or.inl (List.mem_singleton.mp hu))
  obtain ⟨hmap, hnd, hlen, -, -⟩ := h
  constructor
  · have hlenmap := congrArg List.length hmap
    simp only [List.length_map] at hlenmap
    exact le_trans (le_of_eq hlenmap) hlen
  · show (List.map recUrl (crawlLoop w profile_key (splitHost start_url) max_pages fuel
      ⟨[], [], [start_url], []⟩).results).Nodup
    rw [hmap]
    exact hnd.map (fun a b hab => by simpa using hab)

/-- Claim C2 (amended): every URL ever enqueued carries the start host
(`start_url.split('/')[2]`) as a substring of the *full resolved URL string*
(not necessarily of its host component), and every rendered URL other than
the start URL satisfies the same full-string containment. -/
theorem enqueued_urls_contain_start_host (w : World) (start_url : String)
    (max_pages : Nat) (profile_key : String) (fuel : Nat) (h : String)
    (hh : splitHost start_url = some h) :
    (∀ u ∈ (crawlRun w start_url max_pages profile_key fuel).enqueued,
        containsSub u h = true) ∧
      (∀ u ∈ (crawlRun w start_url max_pages profile_key fuel).visited,
        u = start_url ∨ containsSub u h = true) := by
  have hinv := crawlLoop_inv w profile_key (splitHost start_url) max_pages start_url fuel
    ⟨[], [], [start_url], []⟩ rfl List.nodup_nil (Nat.zero_le _)
    (by intro u hu; cases hu) (by intro u hu; cases hu)
    (by intro u hu; exact Or.inl (List.mem_singleton.mp hu))
  obtain ⟨-, -, -, h4, h5⟩ := hinv
  refine ⟨fun u hu => h4 u hu h hh, fun u hu => ?_⟩
  rcases h5 u hu with h' | h'
  · exact Or.inl h'
  · exact Or.inr (h4 u h' h hh)

/-- A document oracle with no content at all. -/
def emptyDoc : Doc :=
  ⟨none, fun _ => [], fun _ _ => none, none, none, none, none, fun _ => none⟩

/-- The start page of the domain-scoping counterexample: a single anchor to a
cross-domain URL whose query string contains the start host. -/
def docWithEvilLink : Doc :=
  ⟨none,
    fun sel => if sel = "a[href]"
      then [⟨[("href", "https://evil.com/x?ref=a.com")], ""⟩] else [],
    fun _ _ => none, none, none, none, none, fun _ => none⟩

/-- World of the domain-scoping counterexample: the start page links to the
cross-domain URL, both render successfully, hrefs are already absolute. -/
def scopeWorld : World :=
  ⟨fun u => if u = "https://a.com/" then some docWithEvilLink
    else if u = "https://evil.com/x?ref=a.com" then some emptyDoc else none,
    fun href _ => some href⟩

/-- Claim C2 counterexample: crawling from https a.com, the URL
https evil.com/x?ref=a.com is enqueued and rendered although its resolved
host is "evil.com", which neither equals nor contains the start host
"a.com" — the code checks substring containment against the whole URL
string, not against its host component. -/
theorem enqueue_check_not_host_scoped :
    "https://evil.com/x?ref=a.com" ∈
        (crawlRun scopeWorld "https://a.com/" 10 "general" 3).enqueued ∧
      "https://evil.com/x?ref=a.com" ∈
        (crawlRun scopeWorld "https://a.com/" 10 "general" 3).visited ∧
      netloc "https://evil.com/x?ref=a.com" = "evil.com" ∧
      splitHost "https://a.com/" = some "a.com" ∧
      containsSub "evil.com" "a.com" = false ∧
      "evil.com" ≠ "a.com" := by
  refine ⟨?_, ?_, ?_, ?_, ?_, ?_⟩ <;> decide

theorem enqueued_urls_contain_start_host_instance :
    containsSub "https://evil.com/x?ref=a.com" "a.com" = true :=
  (enqueued_urls_contain_start_host scopeWorld "https://a.com/" 10 "general" 3 "a.com"
    (by decide)).1 "https://evil.com/x?ref=a.com" (by decide)

theorem crawlLoop_allfail (w : World) (hw : ∀ u, w.fetch u = none) (pk : String)
    (sh : Option String) (mp : Nat) :
    ∀ (fuel : Nat) (st : CrawlState),
      (crawlLoop w pk sh mp fuel st).results = st.results ∧
        (crawlLoop w pk sh mp fuel st).visited = st.visited := by
  intro fuel
  induction fuel with
  | zero => intro st; exact ⟨rfl, rfl⟩
  | succ n ih =>
    rintro ⟨res, vis, tv, enq⟩
    cases tv with
    | nil => exact ⟨rfl, rfl⟩
    | cons url rest =>
      by_cases hmp : mp ≤ vis.length
      · simp [crawlLoop, if_pos hmp]
      · by_cases hv : url ∈ vis
        · simp only [crawlLoop, if_neg hmp, if_pos hv]
          exact ih ⟨res, vis, rest, enq⟩
        · simp only [crawlLoop, if_neg hmp, if_neg hv, hw url]
          exact ih ⟨res, vis, rest, enq⟩

/-- Claim C8: a URL whose render fails is not added to the visited set,
produces no PageRecord, and the crawl continues with the rest of the frontier
(first conjunct: one loop step on a failing fetch only pops the URL); and a
run in which no page renders successfully returns the empty result list
rather than failing (second conjunct). -/
theorem render_failure_skips_and_crawl_total :
    (∀ (w : World) (pk : String) (sh : Option String) (mp fuel : Nat)
        (st : CrawlState) (url : String) (rest : List String),
        st.to_visit = url :: rest → w.fetch url = none →
        ¬ mp ≤ st.visited.length → url ∉ st.visited →
        crawlLoop w pk sh mp (fuel + 1) st =
          crawlLoop w pk sh mp fuel ⟨st.results, st.visited, rest, st.enqueued⟩) ∧
      (∀ (w : World) (start_url : String) (mp : Nat) (pk : String) (fuel : Nat),
        (∀ u, w.fetch u = none) →
        enhanced_crawl_with_extraction w start_url mp pk fuel = []) := by
  constructor
  · rintro w pk sh mp fuel ⟨res, vis, tv, enq⟩ url rest hto hfet hmp hv
    have hto' : tv = url :: rest := hto
    subst hto'
    simp only [crawlLoop, if_neg hmp, if_neg hv, hfet]
  · intro w start_url mp pk fuel hw
    exact (crawlLoop_allfail w hw pk (splitHost start_url) mp fuel
      ⟨[], [], [start_url], []⟩).1

/-- World in which nothing ever renders. -/
def deadWorld : World := ⟨fun _ => none, fun _ _ => none⟩

theorem render_failure_skips_and_crawl_total_instance :
    (crawlLoop deadWorld "general" none 5 1 ⟨[], [], ["https://a.com/"], []⟩ =
        crawlLoop deadWorld "general" none 5 0 ⟨[], [], [], []⟩) ∧
      enhanced_crawl_with_extraction deadWorld "https://a.com/" 5 "general" 9 = [] :=
  ⟨render_failure_skips_and_crawl_total.1 deadWorld "general" none 5 0
      ⟨[], [], ["https://a.com/"], []⟩ "https://a.com/" [] rfl rfl (by decide) (by decide),
    render_failure_skips_and_crawl_total.2 deadWorld "https://a.com/" 5 "general" 9
      (fun _ => rfl)⟩

theorem crawlLoop_visited_profile_indep (w : World) (sh : Option String) (mp : Nat)
    (pk1 pk2 : String) :
    ∀ (fuel : Nat) (st1 st2 : CrawlState),
      st1.visited = st2.visited → st1.to_visit = st2.to_visit →
      (crawlLoop w pk1 sh mp fuel st1).visited = (crawlLoop w pk2 sh mp fuel st2).visited ∧
        (crawlLoop w pk1 sh mp fuel st1).to_visit =
          (crawlLoop w pk2 sh mp fuel st2).to_visit := by
  intro fuel
  induction fuel with
  | zero => intro st1 st2 h1 h2; exact ⟨h1, h2⟩
  | succ n ih =>
    rintro ⟨r1, v1, t1, e1⟩ ⟨r2, v2, t2, e2⟩ h1 h2
    have h1' : v1 = v2 := h1
    have h2' : t1 = t2 := h2
    subst h1'
    subst h2'
    cases t1 with
    | nil => exact ⟨rfl, rfl⟩
    | cons url rest =>
      by_cases hmp : mp ≤ v1.length
      · simp [crawlLoop, if_pos hmp]
      · by_cases hv : url ∈ v1
        · simp only [crawlLoop, if_neg hmp, if_pos hv]
          exact ih ⟨r1, v1, rest, e1⟩ ⟨r2, v1, rest, e2⟩ rfl rfl
        · cases hf : w.fetch url with
          | none =>
            simp only [crawlLoop, if_neg hmp, if_neg hv, hf]
            exact ih ⟨r1, v1, rest, e1⟩ ⟨r2, v1, rest, e2⟩ rfl rfl
          | some d =>
            simp only [crawlLoop, if_neg hmp, if_neg hv, hf]
            exact ih _ _ rfl rfl

/-- Claim C4 (amended): an unregistered profile key does not fail and is not
rejected before fetching: profile-specific extraction simply contributes no
fields (exactly as for "general"), and the crawl's visited/frontier evolution
is identical to a run under the "general" profile. -/
theorem unknown_profile_behaves_like_general :
    ∀ (pk : String), PROFILES.lookup pk = none →
      (∀ d : Doc, extract_profile_specific pk d = []) ∧
        (∀ (w : World) (start_url : String) (mp fuel : Nat),
          (crawlRun w start_url mp pk fuel).visited =
              (crawlRun w start_url mp "general" fuel).visited ∧
            (crawlRun w start_url mp pk fuel).to_visit =
              (crawlRun w start_url mp "general" fuel).to_visit) := by
  intro pk hpk
  constructor
  · intro d
    unfold extract_profile_specific
    rw [hpk]
  · intro w start_url mp fuel
    exact crawlLoop_visited_profile_indep w (splitHost start_url) mp pk "general" fuel
      ⟨[], [], [start_url], []⟩ ⟨[], [], [start_url], []⟩ rfl rfl

/-- World with a single renderable page and no links. -/
def soloWorld : World :=
  ⟨fun u => if u = "https://a.com/" then some emptyDoc else none, fun href _ => some href⟩

/-- Claim C4 counterexample: "nonexistent" is not a registered profile key,
yet the crawl does not fail before fetching — it renders the start page and
returns one PageRecord, so network activity does occur. -/
theorem unknown_profile_crawl_proceeds :
    PROFILES.lookup "nonexistent" = none ∧
      (enhanced_crawl_with_extraction soloWorld "https://a.com/" 5 "nonexistent" 3).length
        = 1 := by
  refine ⟨?_, ?_⟩ <;> decide

theorem unknown_profile_behaves_like_general_instance :
    extract_profile_specific "bogus" emptyDoc = [] ∧
      (crawlRun soloWorld "https://a.com/" 5 "bogus" 3).visited =
        (crawlRun soloWorld "https://a.com/" 5 "general" 3).visited :=
  ⟨(unknown_profile_behaves_like_general "bogus" (by decide)).1 emptyDoc,
    ((unknown_profile_behaves_like_general "bogus" (by decide)).2 soloWorld
      "https://a.com/" 5 3).1⟩

theorem string_length_pos {s : String} (h : s ≠ "") : 1 ≤ s.length := by
  rcases s with ⟨data⟩
  cases data with
  | nil => exact absurd rfl h
  | cons c cs =>
    show 1 ≤ (c :: cs).length
    simp

theorem imgCount_foldl (l : List Elem) (acc : Nat × Nat × Nat) :
    l.foldl imgCountStep acc =
      (acc.1 + l.countP (fun i => (i.attrs.lookup "alt").isNone),
        acc.2.1 + l.countP (fun i => i.attrs.lookup "alt" == some ""),
        acc.2.2 + l.countP (fun i =>
          match i.attrs.lookup "alt" with
          | some a => decide (5 < a.length)
          | none => false)) := by
  induction l generalizing acc with
  | nil =>
    rcases acc with ⟨a, b, c⟩
    simp
  | cons x l ih =>
    rw [List.foldl_cons, ih]
    unfold imgCountStep
    cases hlk : x.attrs.lookup "alt" with
    | none =>
      simp [List.countP_cons, hlk, Prod.ext_iff]
      all_goals omega
    | some a =>
      by_cases ha : a = ""
      · subst ha
        simp [List.countP_cons, hlk, Prod.ext_iff]
        all_goals omega
      · by_cases hlen : 5 < a.length
        · simp [List.countP_cons, hlk, ha, hlen, Prod.ext_iff]
          omega
        · simp [List.countP_cons, hlk, ha, hlen, Prod.ext_iff]

/-- Claim C5 (amended): `alt_quality` is "good" iff the alt attribute is
present with length > 5, "empty" iff present with length 0, and "missing"
iff the attribute is absent OR present with length 1..5; the three counters
tally exactly the absent / length-0 / length-over-5 images over the same
image list, so an image with a 1-to-5-character alt is classified "missing"
yet counted by no counter. -/
theorem alt_quality_classification (d : Doc) :
    (∀ alt : Option String,
      (alt_quality alt = "good" ↔ ∃ s, alt = some s ∧ 5 < s.length) ∧
        (alt_quality alt = "empty" ↔ alt = some "") ∧
        (alt_quality alt = "missing" ↔
          alt = none ∨ ∃ s, alt = some s ∧ 1 ≤ s.length ∧ s.length ≤ 5)) ∧
      (extract_images d).images_without_alt =
        (d.query "img").countP (fun i => (i.attrs.lookup "alt").isNone) ∧
      (extract_images d).images_with_empty_alt =
        (d.query "img").countP (fun i => i.attrs.lookup "alt" == some "") ∧
      (extract_images d).images_with_good_alt =
        (d.query "img").countP (fun i =>
          match i.attrs.lookup "alt" with
          | some a => decide (5 < a.length)
          | none => false) ∧
      (extract_images d).images_details = (d.query "img").map imgInfoOf := by
  refine ⟨?_, ?_, ?_, ?_, rfl⟩
  · intro alt
    cases alt with
    | none =>
      have hq : alt_quality none = "missing" := by simp [alt_quality, altGoodB]
      rw [hq]
      refine ⟨iff_of_false (by decide) ?_, iff_of_false (by decide) ?_,
        iff_of_true rfl (Or.inl rfl)⟩
      · rintro ⟨s', hs', -⟩
        cases hs'
      · intro h
        cases h
    | some s =>
      by_cases hs : s = ""
      · subst hs
        have hq : alt_quality (some "") = "empty" := by simp [alt_quality, altGoodB]
        rw [hq]
        refine ⟨iff_of_false (by decide) ?_, iff_of_true rfl rfl,
          iff_of_false (by decide) ?_⟩
        · rintro ⟨s', hs', hl⟩
          cases hs'
          simp at hl
        · rintro (h | ⟨s', hs', h1, h2⟩)
          · cases h
          · cases hs'
            simp at h1
      · by_cases hlen : 5 < s.length
        · have hq : alt_quality (some s) = "good" := by
            simp [alt_quality, altGoodB, hs, hlen]
          rw [hq]
          refine ⟨iff_of_true rfl ⟨s, rfl, hlen⟩,
            iff_of_false (by decide) (by simp [hs]), iff_of_false (by decide) ?_⟩
          rintro (h | ⟨s', hs', h1, h2⟩)
          · cases h
          · cases hs'
            omega
        · have hq : alt_quality (some s) = "missing" := by
            simp [alt_quality, altGoodB, hs, hlen]
          rw [hq]
          refine ⟨?_, iff_of_false (by decide) (by simp [hs]),
            iff_of_true rfl (Or.inr ⟨s, rfl, string_length_pos hs, by omega⟩)⟩
          refine iff_of_false (by decide) ?_
          rintro ⟨s', hs', hl⟩
          cases hs'
          omega
  · show ((d.query "img").foldl imgCountStep (0, 0, 0)).1 = _
    rw [imgCount_foldl]
    simp
  · show ((d.query "img").foldl imgCountStep (0, 0, 0)).2.1 = _
    rw [imgCount_foldl]
    simp
  · show ((d.query "img").foldl imgCountStep (0, 0, 0)).2.2 = _
    rw [imgCount_foldl]
    simp

/-- Document with a single image whose alt text is present but short. -/
def altShortDoc : Doc :=
  ⟨none, fun sel => if sel = "img" then [⟨[("alt", "abc")], ""⟩] else [],
    fun _ _ => none, none, none, none, none, fun _ => none⟩

/-- Claim C5 counterexample: an image with the present 3-character alt "abc"
is classified "missing" although the attribute is present (has_alt = true),
and it is tallied under none of the three counters — so alt_quality
"missing" does not hold iff the attribute is absent, and the image is not
counted under its category's counter. -/
theorem short_alt_classified_missing :
    (extract_images altShortDoc).images_details =
        [⟨none, "abc", "", none, none, true, "missing"⟩] ∧
      (extract_images altShortDoc).images_without_alt = 0 ∧
      (extract_images altShortDoc).images_with_empty_alt = 0 ∧
      (extract_images altShortDoc).images_with_good_alt = 0 ∧
      (extract_images altShortDoc).total_images = 1 := by
  refine ⟨?_, ?_, ?_, ?_, ?_⟩ <;> decide

/-- Category predicate: anchor with truthy href that is internal (href starts
with "/" or contains the page domain as a substring). -/
def linkInternal (domain : String) (a : Elem) : Bool :=
  match a.attrs.lookup "href" with
  | some href => !(href == "") && (href.startsWith "/" || containsSub href domain)
  | none => false

/-- Category predicate: anchor with truthy href counted external (not
internal, href starts with "http"). -/
def linkExternal (domain : String) (a : Elem) : Bool :=
  match a.attrs.lookup "href" with
  | some href =>
    !(href == "") && !(href.startsWith "/" || containsSub href domain) &&
      href.startsWith "http"
  | none => false

/-- Category predicate: anchor with truthy href equal to "#" or starting
with "#". -/
def linkBrokenAnchor (a : Elem) : Bool :=
  match a.attrs.lookup "href" with
  | some href => !(href == "") && (href == "#" || href.startsWith "#")
  | none => false

/-- Category predicate: anchor with truthy href and empty stripped text. -/
def linkNoText (a : Elem) : Bool :=
  match a.attrs.lookup "href" with
  | some href => !(href == "") && (pyStrip a.innerText == "")
  | none => false

/-- Category predicate: anchor with truthy href whose rel contains
"nofollow". -/
def linkNofollow (a : Elem) : Bool :=
  match a.attrs.lookup "href" with
  | some href => !(href == "") && containsSub ((a.attrs.lookup "rel").getD "") "nofollow"
  | none => false

theorem linkStep_foldl (domain : String) (l : List Elem) (acc : LinksData) :
    l.foldl (linkStep domain) acc =
      ⟨acc.total_links,
        acc.internal_links + l.countP (linkInternal domain),
        acc.external_links + l.countP (linkExternal domain),
        acc.broken_anchor_links + l.countP linkBrokenAnchor,
        acc.links_without_text + l.countP linkNoText,
        acc.nofollow_links + l.countP linkNofollow⟩ := by
  induction l generalizing acc with
  | nil =>
    rcases acc with ⟨t, a, b, c, e, f⟩
    simp
  | cons x l ih =>
    rw [List.foldl_cons, ih]
    unfold linkStep linkInternal linkExternal linkBrokenAnchor linkNoText linkNofollow
    cases hlk : x.attrs.lookup "href" with
    | none =>
      simp [List.countP_cons, hlk]
    | some href =>
      by_cases he : href = ""
      · subst he
        simp [List.countP_cons, hlk]
      · simp only [List.countP_cons, hlk, if_neg he, LinksData.mk.injEq]
        have hne : (href == "") = false := beq_eq_false_iff_ne.mpr he
        simp only [hne, Bool.not_false, Bool.true_and]
        refine ⟨by trivial, ?_, ?_, ?_, ?_, ?_⟩ <;> (split <;> omega)

/-- Claim C9: `total_links` and the five sub-counts are independent tallies
over the same anchor set: the set of all `a` matches, whose size is
`total_links`; each sub-count equals the number of anchors in that same set
satisfying its category predicate (every category predicate includes the
truthy-href guard — anchors without truthy href are counted in the total but
lie in no category). -/
theorem link_counts_are_tallies_over_same_set (url : String) (d : Doc) :
    (extract_links url d).total_links = (d.query "a").length ∧
      (extract_links url d).internal_links =
        (d.query "a").countP (linkInternal (netloc url)) ∧
      (extract_links url d).external_links =
        (d.query "a").countP (linkExternal (netloc url)) ∧
      (extract_links url d).broken_anchor_links =
        (d.query "a").countP linkBrokenAnchor ∧
      (extract_links url d).links_without_text =
        (d.query "a").countP linkNoText ∧
      (extract_links url d).nofollow_links =
        (d.query "a").countP linkNofollow := by
  unfold extract_links
  rw [linkStep_foldl]
  simp

/-- First-seen-order dedup insertion: append the text unless already present. -/
def insertIfNew (acc : List String) (t : String) : List String :=
  if acc.contains t then acc else acc ++ [t]

/-- All texts the field's selectors match, in selector-then-document order:
every element of every selector (no per-selector cap), stripped, empty texts
dropped. -/
def allMatchedTexts (d : Doc) (sels : List String) : List String :=
  (sels.flatMap (fun sel => (d.query sel).map (fun e => pyStrip e.innerText))).filter
    (fun t => !(t == ""))

theorem collect_inner (els : List Elem) (acc : List String) :
    els.foldl (fun acc2 el =>
        let t := (pyStrip el.innerText)
        if t ≠ "" ∧ ¬ acc2.contains t then acc2 ++ [t] else acc2) acc =
      ((els.map (fun e => pyStrip e.innerText)).filter (fun t => !(t == ""))).foldl
        insertIfNew acc := by
  induction els generalizing acc with
  | nil => rfl
  | cons x l ih =>
    simp only [List.foldl_cons, List.map_cons, List.filter_cons]
    by_cases hx : pyStrip x.innerText = ""
    · simp only [hx]
      rw [if_neg (by simp), if_neg (by simp)]
      exact ih acc
    · have hbeq : (pyStrip x.innerText == "") = false := beq_eq_false_iff_ne.mpr hx
      simp only [hbeq, Bool.not_false, if_pos trivial, List.foldl_cons]
      have hstep : (if pyStrip x.innerText ≠ "" ∧ ¬ acc.contains (pyStrip x.innerText)
            then acc ++ [pyStrip x.innerText] else acc) =
          insertIfNew acc (pyStrip x.innerText) := by
        unfold insertIfNew
        by_cases hc : acc.contains (pyStrip x.innerText)
        · have hc' : pyStrip x.innerText ∈ acc := by simpa using hc
          rw [if_neg (by simp [hc']), if_pos hc]
        · rw [if_pos ⟨hx, hc⟩, if_neg hc]
      rw [hstep]
      exact ih _

theorem collect_outer (d : Doc) (sels : List String) :
    ∀ acc : List String,
      (sels.foldl (fun acc sel =>
        (d.query sel).foldl (fun acc2 el =>
          let t := (pyStrip el.innerText)
          if t ≠ "" ∧ ¬ acc2.contains t then acc2 ++ [t] else acc2) acc) acc) =
      (allMatchedTexts d sels).foldl insertIfNew acc := by
  induction sels with
  | nil => intro acc; rfl
  | cons sel rest ih =>
    intro acc
    simp only [List.foldl_cons, allMatchedTexts, List.flatMap_cons, List.filter_append,
      List.foldl_append]
    rw [collect_inner]
    exact ih _

theorem insertIfNew_foldl_nodup (l : List String) :
    ∀ acc : List String, acc.Nodup → (l.foldl insertIfNew acc).Nodup := by
  induction l with
  | nil => intro acc h; exact h
  | cons x l ih =>
    intro acc h
    rw [List.foldl_cons]
    apply ih
    unfold insertIfNew
    by_cases hc : acc.contains x
    · rw [if_pos hc]
      exact h
    · rw [if_neg hc]
      refine h.append (List.nodup_singleton x) ?_
      intro a ha hmem
      rw [List.mem_singleton] at hmem
      subst hmem
      exact hc (by simpa using ha)

/-- Claim C6 (amended): there is no per-selector element cap — every element
matched by every selector contributes; the field's value list is the
first-seen-order dedup of all non-empty stripped matched texts across all
selectors, truncated to at most 10 entries; it is duplicate-free and never
longer than 10. -/
theorem profile_values_union_dedup_cap (d : Doc) (sels : List String) :
    collectValues d sels = ((allMatchedTexts d sels).foldl insertIfNew []).take 10 ∧
      (collectValues d sels).Nodup ∧ (collectValues d sels).length ≤ 10 := by
  have heq : collectValues d sels =
      ((allMatchedTexts d sels).foldl insertIfNew []).take 10 := by
    unfold collectValues
    rw [collect_outer]
  refine ⟨heq, ?_, ?_⟩
  · rw [heq]
    exact (insertIfNew_foldl_nodup _ [] List.nodup_nil).sublist (List.take_sublist _ _)
  · rw [heq]
    exact le_trans (le_of_eq rfl) (by simp [List.length_take])

/-- Document on which one e-commerce price selector matches seven elements
with seven distinct texts. -/
def sevenPriceDoc : Doc :=
  ⟨none,
    fun sel => if sel = "[class*=\"price\"]"
      then [⟨[], "t1"⟩, ⟨[], "t2"⟩, ⟨[], "t3"⟩, ⟨[], "t4"⟩, ⟨[], "t5"⟩, ⟨[], "t6"⟩,
        ⟨[], "t7"⟩]
      else [],
    fun _ _ => none, none, none, none, none, fun _ => none⟩

/-- Claim C6 counterexample: a single selector of the e-commerce "price"
field matches seven elements and all seven texts appear in the field's value
list — the sixth and seventh elements of one selector still contribute, so
at most-the-first-5-elements-per-selector is false. -/
theorem no_per_selector_element_cap :
    (extract_profile_specific "ecommerce" sevenPriceDoc).lookup "profile_price" =
      some (Val.ls ["t1", "t2", "t3", "t4", "t5", "t6", "t7"]) := rfl

/-- Claim C10: for every registered profile and every field whose selector
specification is a mapping rather than a list (in the shipped registry, only
the e-commerce "images" field), profile-specific extraction outputs the
empty mapping as that field's value, regardless of the document. -/
theorem dict_selector_fields_yield_empty_map (pk : String) (prof : Profile)
    (f : String) (dv : List (String × SelDictEntry)) (d : Doc)
    (hlk : PROFILES.lookup pk = some prof)
    (hmem : (f, SelSpec.dict dv) ∈ prof.selectors) :
    (extract_profile_specific pk d).lookup ("profile_" ++ f) = some (Val.pairs []) := by
  by_cases h1 : pk = "ecommerce"
  · subst h1
    rw [show PROFILES.lookup "ecommerce" = some ecommerceProfile from rfl] at hlk
    injection hlk with hlk'
    subst hlk'
    simp only [ecommerceProfile, List.mem_cons, List.not_mem_nil, or_false,
      Prod.mk.injEq] at hmem
    rcases hmem with ⟨hf, hs⟩ | ⟨hf, hs⟩ | ⟨hf, hs⟩ | ⟨hf, hs⟩ | ⟨hf, hs⟩ | ⟨hf, hs⟩
    · exact SelSpec.noConfusion hs
    · exact SelSpec.noConfusion hs
    · exact SelSpec.noConfusion hs
    · exact SelSpec.noConfusion hs
    · exact SelSpec.noConfusion hs
    · subst hf
      rfl
  · by_cases h2 : pk = "b2b"
    · subst h2
      rw [show PROFILES.lookup "b2b" = some b2bProfile from rfl] at hlk
      injection hlk with hlk'
      subst hlk'
      simp only [b2bProfile, List.mem_cons, List.not_mem_nil, or_false,
        Prod.mk.injEq] at hmem
      rcases hmem with ⟨-, hs⟩ | ⟨-, hs⟩ | ⟨-, hs⟩ | ⟨-, hs⟩ | ⟨-, hs⟩ <;>
        exact SelSpec.noConfusion hs
    · by_cases h3 : pk = "blog_content"
      · subst h3
        rw [show PROFILES.lookup "blog_content" = some blogContentProfile from rfl] at hlk
        injection hlk with hlk'
        subst hlk'
        simp only [blogContentProfile, List.mem_cons, List.not_mem_nil, or_false,
          Prod.mk.injEq] at hmem
        rcases hmem with ⟨-, hs⟩ | ⟨-, hs⟩ | ⟨-, hs⟩ | ⟨-, hs⟩ | ⟨-, hs⟩ <;>
          exact SelSpec.noConfusion hs
      · by_cases h4 : pk = "local_business"
        · subst h4
          rw [show PROFILES.lookup "local_business" = some localBusinessProfile
            from rfl] at hlk
          injection hlk with hlk'
          subst hlk'
          simp only [localBusinessProfile, List.mem_cons, List.not_mem_nil, or_false,
            Prod.mk.injEq] at hmem
          rcases hmem with ⟨-, hs⟩ | ⟨-, hs⟩ | ⟨-, hs⟩ | ⟨-, hs⟩ | ⟨-, hs⟩ <;>
            exact SelSpec.noConfusion hs
        · by_cases h5 : pk = "general"
          · subst h5
            rw [show PROFILES.lookup "general" = some generalProfile from rfl] at hlk
            injection hlk with hlk'
            subst hlk'
            simp only [generalProfile, List.mem_cons, List.not_mem_nil, or_false,
              Prod.mk.injEq] at hmem
            exact SelSpec.noConfusion hmem.2
          · have hnone : PROFILES.lookup pk = none := by
              have e1 : (pk == "ecommerce") = false := beq_eq_false_iff_ne.mpr h1
              have e2 : (pk == "b2b") = false := beq_eq_false_iff_ne.mpr h2
              have e3 : (pk == "blog_content") = false := beq_eq_false_iff_ne.mpr h3
              have e4 : (pk == "local_business") = false := beq_eq_false_iff_ne.mpr h4
              have e5 : (pk == "general") = false := beq_eq_false_iff_ne.mpr h5
              simp [PROFILES, List.lookup, e1, e2, e3, e4, e5]
            rw [hnone] at hlk
            cases hlk

theorem dict_selector_fields_yield_empty_map_instance :
    (extract_profile_specific "ecommerce" emptyDoc).lookup "profile_images" =
      some (Val.pairs []) :=
  dict_selector_fields_yield_empty_map "ecommerce" ecommerceProfile "images"
    [("product_images", SelDictEntry.s "[class*=\"product\"] img, .gallery img"),
      ("check_alt", SelDictEntry.b true), ("check_size", SelDictEntry.b true)]
    emptyDoc rfl (by decide)

/-- Whether a record key belongs to the document-dependent `meta_ + name`
family produced by `_extract_metadata`. -/
def isMetaKey (k : String) : Bool := listPrefixB "meta_".data k.data

theorem listPrefixB_self_append (l t : List Char) : listPrefixB l (l ++ t) = true := by
  induction l with
  | nil => rfl
  | cons c cs ih => simp [listPrefixB, ih]

theorem isMetaKey_append (n : String) : isMetaKey ("meta_" ++ n) = true := by
  unfold isMetaKey
  rw [String.data_append]
  exact listPrefixB_self_append _ _

theorem mem_metadataPairs_isMeta {d : Doc} {k : String}
    (hk : k ∈ (metadataPairs d).map Prod.fst) : isMetaKey k = true := by
  obtain ⟨⟨k', v⟩, hmem, hfst⟩ := List.mem_map.mp hk
  obtain ⟨m, -, hf⟩ := List.mem_filterMap.mp hmem
  rw [show metaName m = pyOrO (m.attrs.lookup "name")
    (pyOrO (m.attrs.lookup "property") (m.attrs.lookup "http-equiv")) from rfl] at hf
  split at hf
  · split at hf
    · injection hf with hf'
      injection hf' with hk' hv'
      subst hfst
      have : k' = "meta_" ++ _ := hk'.symm
      rw [this]
      exact isMetaKey_append _
    · cases hf
  · cases hf

/-- The record keys contributed by the fixed extraction dimensions, in the
assembly order of `extract_all_content`. -/
def coreKeys : List String :=
  ["title_tag", "og_title", "twitter_title", "h1_as_title", "largest_text_as_title",
    "best_title", "meta_description", "og_description", "first_paragraph",
    "twitter_description", "best_description", "h1_tags", "h2_tags", "h3_tags",
    "h4_tags", "h5_tags", "h6_tags", "heading_structure_issues", "visual_headings",
    "main_text", "word_count", "paragraph_count", "all_text_blocks",
    "content_location", "has_thin_content", "has_good_content", "has_long_content",
    "total_images", "images_without_alt", "images_with_empty_alt",
    "images_with_good_alt", "images_details", "background_images", "total_links",
    "internal_links", "external_links", "broken_anchor_links", "links_without_text",
    "nofollow_links", "has_schema", "schema_types", "schema_data", "json_ld_count",
    "microdata_count", "canonical_url", "robots_meta", "has_sitemap_link",
    "has_robots_txt", "hreflang_tags", "og_tags", "twitter_tags"]

/-- The profile-specific record keys: one `profile_{field}` key per list- or
mapping-valued field of the registered, non-general profile. -/
def profileKeys (pk : String) : List String :=
  match PROFILES.lookup pk with
  | none => []
  | some profile =>
    if pk = "general" then []
    else
      profile.selectors.foldl (fun acc2 fs =>
        match fs.2 with
        | SelSpec.strs _ => acc2 ++ ["profile_" ++ fs.1]
        | SelSpec.dict _ => acc2 ++ ["profile_" ++ fs.1]
        | SelSpec.flag _ => acc2) []

theorem map_fst_selector_foldl (d : Doc) (sels : List (String × SelSpec)) :
    ∀ acc : List (String × Val),
      (sels.foldl (fun acc fs =>
        match fs.2 with
        | SelSpec.strs sels2 =>
          acc ++ [("profile_" ++ fs.1, Val.ls (collectValues d sels2))]
        | SelSpec.dict _ => acc ++ [("profile_" ++ fs.1, Val.pairs [])]
        | SelSpec.flag _ => acc) acc).map Prod.fst =
      sels.foldl (fun acc2 fs =>
        match fs.2 with
        | SelSpec.strs _ => acc2 ++ ["profile_" ++ fs.1]
        | SelSpec.dict _ => acc2 ++ ["profile_" ++ fs.1]
        | SelSpec.flag _ => acc2) (acc.map Prod.fst) := by
  induction sels with
  | nil => intro acc; rfl
  | cons fs rest ih =>
    intro acc
    simp only [List.foldl_cons]
    cases hspec : fs.2 with
    | strs sels2 =>
      rw [ih]
      simp
    | dict dv =>
      rw [ih]
      simp
    | flag b =>
      rw [ih]

theorem map_fst_extract_profile (pk : String) (d : Doc) :
    (extract_profile_specific pk d).map Prod.fst = profileKeys pk := by
  unfold extract_profile_specific profileKeys
  cases PROFILES.lookup pk with
  | none => rfl
  | some profile =>
    by_cases hg : pk = "general"
    · simp [hg]
    · simp only [if_neg hg]
      exact map_fst_selector_foldl d profile.selectors []

theorem keys_extract_all (pk : String) (d : Doc) (url : String) :
    (extract_all_content pk d url).map Prod.fst =
      "url" :: ((metadataPairs d).map Prod.fst ++ coreKeys ++ profileKeys pk) := by
  unfold extract_all_content
  simp only [List.map_cons, List.map_append]
  rw [map_fst_extract_profile]
  simp [titlesPairs, descriptionsPairs, headingsPairs, contentPairs, imagesPairs,
    linksPairs, structuredPairs, seoPairs, coreKeys]

/-- Claim C7 (amended): for every profile, the record key set is stable
across documents outside the document-dependent `meta_ + name` family: a key
not of the form `meta_` ++ name belongs to one record's key set iff it
belongs to any other record's key set under the same profile. -/
theorem record_keys_stable_outside_meta (pk : String) (d1 d2 : Doc)
    (u1 u2 : String) (k : String) (hk : isMetaKey k = false) :
    (k ∈ (extract_all_content pk d1 u1).map Prod.fst ↔
      k ∈ (extract_all_content pk d2 u2).map Prod.fst) := by
  rw [keys_extract_all, keys_extract_all]
  have h1 : k ∉ (metadataPairs d1).map Prod.fst := fun h => by
    rw [mem_metadataPairs_isMeta h] at hk
    cases hk
  have h2 : k ∉ (metadataPairs d2).map Prod.fst := fun h => by
    rw [mem_metadataPairs_isMeta h] at hk
    cases hk
  simp only [List.mem_cons, List.mem_append]
  constructor
  · rintro (h | (hm | hc) | hp)
    · exact Or.inl h
    · exact absurd hm h1
    · exact Or.inr (Or.inl (Or.inr hc))
    · exact Or.inr (Or.inr hp)
  · rintro (h | (hm | hc) | hp)
    · exact Or.inl h
    · exact absurd hm h2
    · exact Or.inr (Or.inl (Or.inr hc))
    · exact Or.inr (Or.inr hp)

/-- Document with a single meta tag named "a". -/
def metaDoc : Doc :=
  ⟨none,
    fun sel => if sel = "meta" then [⟨[("name", "a"), ("content", "b")], ""⟩] else [],
    fun _ _ => none, none, none, none, none, fun _ => none⟩

/-- Claim C7 counterexample: under the same profile "general", a document
carrying one meta tag named "a" produces the record key "meta_a" while the
empty document does not — two records of the same profile have different key
sets. -/
theorem meta_keys_vary_across_documents :
    "meta_a" ∈ (extract_all_content "general" metaDoc "u").map Prod.fst ∧
      "meta_a" ∉ (extract_all_content "general" emptyDoc "u").map Prod.fst := by
  refine ⟨?_, ?_⟩ <;> decide

theorem record_keys_stable_outside_meta_instance :
    ("title_tag" ∈ (extract_all_content "general" metaDoc "u").map Prod.fst ↔
      "title_tag" ∈ (extract_all_content "general" emptyDoc "u").map Prod.fst) :=
  record_keys_stable_outside_meta "general" metaDoc emptyDoc "u" "u" "title_tag"
    (by decide)
